import Mathlib

/-!
Verification of the Scryfall data-wrangling pipeline (`scryfall_api.py`).

The single source file defines two classes:
* `ScryfallAPI` — fetches the bulk-data listing, resolves the download URI
  and hands the cached file name to the wrangler (`get_dataset`).
* `ScryfallDataWrangler` — loads the cached JSON into a pandas DataFrame and
  applies an ordered pipeline of row-filter and column-derivation steps
  (`wrangle`).

The pandas DataFrame is embedded shallowly: a table is a column-name list
plus a list of rows, each row an association list from column name to a
`Val` (the JSON-ish scalar/list/dict value universe, with `Val.null`
standing for both JSON null and pandas NaN).  Numeric values are modelled
by `Rat` (the source's Python ints and floats; all arithmetic performed by
the pipeline on the inputs used here is exact in `Rat`).  Fallible pandas
operations (missing columns = KeyError, `in` on a non-string = TypeError,
`.iloc[0]` of an empty selection = IndexError, failed `assert` =
AssertionError) are modelled with `Except String`.

`Series.__getitem__` with the key `0` on the `value_counts` result is
modelled with pandas-1.x semantics: label lookup (0 == False) on a
boolean-valued index, positional fallback on a string-valued index; on the
states reachable in this pipeline the two semantics agree except that both
raise on an empty series, which is also how it is modelled here.
-/

/-- A pandas/JSON cell value.  `null` stands for JSON null and NaN alike. -/
inductive Val where
  | null : Val
  | b : Bool → Val
  | s : String → Val
  | num : Rat → Val
  | list : List Val → Val
  | dict : List (String × Val) → Val

def isNullV : Val → Bool
  | Val.null => true
  | _ => false

/-- Equality test on scalar values, as used by pandas element-wise `==`
against a scalar (mismatched kinds compare unequal, null compares unequal
to everything, as NaN does). -/
def scalarEq : Val → Val → Bool
  | Val.b x, Val.b y => x == y
  | Val.s x, Val.s y => x == y
  | Val.num x, Val.num y => decide (x = y)
  | _, _ => false

def isListDictV : Val → Bool
  | Val.list _ => true
  | Val.dict _ => true
  | _ => false

/-- Does the text start with the pattern? -/
def charsStartWith : List Char → List Char → Bool
  | [], _ => true
  | _ :: _, [] => false
  | p :: ps, x :: xs => p == x && charsStartWith ps xs

/-- Is the pattern a contiguous substring of the text? -/
def charsHaveInfix (pat : List Char) : List Char → Bool
  | [] => pat.isEmpty
  | x :: xs => charsStartWith pat (x :: xs) || charsHaveInfix pat xs

/-- Python `pat in s` substring test. -/
def strContains (s pat : String) : Bool :=
  charsHaveInfix pat.toList s.toList

/-- One record: an association list from column name to value. -/
abbrev Row := List (String × Val)

/-- The in-memory table: column order plus the record list. -/
structure Table where
  cols : List String
  rows : List Row

/-- Read one cell of a record; a missing entry reads as NaN. -/
def rowGet (r : Row) (c : String) : Val :=
  match r with
  | [] => Val.null
  | (k, v) :: rest => if k == c then v else rowGet rest c

/-- Write one cell of a record (pandas column assignment, row-wise). -/
def rowSet (r : Row) (c : String) (v : Val) : Row :=
  (c, v) :: r.filter (fun kv => kv.1 != c)

def hasCol (t : Table) (c : String) : Bool :=
  t.cols.contains c

/-- The value list of one column (`df[c]`), in row order. -/
def getColVals (t : Table) (c : String) : List Val :=
  t.rows.map (fun r => rowGet r c)

/-- The non-null values of one column (`df[c].dropna()`). -/
def nonNullVals (t : Table) (c : String) : List Val :=
  (getColVals t c).filter (fun v => !(isNullV v))

/-- First non-null value of a column (`df[c].dropna().iloc[0]`). -/
def firstNonNull (t : Table) (c : String) : Option Val :=
  (getColVals t c).find? (fun v => !(isNullV v))

def countNullIn (t : Table) (c : String) : Nat :=
  (getColVals t c).countP isNullV

/-- `df.drop(index=...)` driven by a fallible per-row predicate: rows on
which the predicate is true are removed; a predicate error (e.g. TypeError
from `"Basic" in nan`) aborts the whole operation, as it would in pandas. -/
def filterRowsOutE (p : Row → Except String Bool) : List Row → Except String (List Row)
  | [] => Except.ok []
  | r :: rs => do
      let bad ← p r
      let rest ← filterRowsOutE p rs
      Except.ok (if bad then rest else r :: rest)

/-- Remove the rows whose value in column `c` satisfies `p`
(`df.drop(index=df[pred].index, inplace=True)`); KeyError if the column
is absent. -/
def dropRowsWhere (c : String) (p : Val → Except String Bool) (t : Table) :
    Except String Table :=
  if hasCol t c then do
    let rows' ← filterRowsOutE (fun r => p (rowGet r c)) t.rows
    Except.ok ⟨t.cols, rows'⟩
  else Except.error ("KeyError: " ++ c)

/-- Remove the rows satisfying a pure predicate over several columns
(used for the modal-dfc step's conjunction of two column tests). -/
def dropRowsWhereRow (needed : List String) (p : Row → Bool) (t : Table) :
    Except String Table :=
  if needed.all (fun c => hasCol t c) then
    Except.ok ⟨t.cols, t.rows.filter (fun r => !(p r))⟩
  else Except.error "KeyError: missing column"

/-- `df.drop(columns=names)`: remove the named columns (and their cells). -/
def dropColsByName (names : List String) (t : Table) : Table :=
  ⟨t.cols.filter (fun c => !(names.contains c)),
   t.rows.map (fun r => r.filter (fun kv => !(names.contains kv.1)))⟩

/-- Assign a whole column (`df[c] = vals`): overwrite in place if the
column exists, else append it at the end of the schema. -/
def setCol (t : Table) (c : String) (vals : List Val) : Table :=
  ⟨if t.cols.contains c then t.cols else t.cols ++ [c],
   t.rows.zipWith (fun r v => rowSet r c v) vals⟩

/-- `df[dst] = df[src].apply(f)` with a fallible `f`. -/
def setColFromCol (dst src : String) (f : Val → Except String Val) (t : Table) :
    Except String Table :=
  if hasCol t src then do
    let vs ← (getColVals t src).mapM f
    Except.ok (setCol t dst vs)
  else Except.error ("KeyError: " ++ src)

/-- `df[dst] = df.apply(f, axis=1)` with a fallible row function. -/
def setColFromRowE (dst : String) (f : Row → Except String Val) (t : Table) :
    Except String Table := do
  let vs ← t.rows.mapM f
  Except.ok (setCol t dst vs)

/-- `df[c].fillna(value=v, inplace=True)`. -/
def fillNA (c : String) (v : Val) (t : Table) : Except String Table :=
  if hasCol t c then
    Except.ok (setCol t c ((getColVals t c).map (fun x => if isNullV x then v else x)))
  else Except.error ("KeyError: " ++ c)

/-- Number of rows whose value in `c` satisfies `p` (a re-query such as
`df[df[...]].shape[0]`); fails if the predicate fails on some row. -/
def countMatchingE (c : String) (p : Val → Except String Bool) (t : Table) :
    Except String Nat :=
  if hasCol t c then do
    let bs ← (getColVals t c).mapM p
    Except.ok (bs.count true)
  else Except.error ("KeyError: " ++ c)

/-- `assert df[cond].shape[0] == 0`: re-query the removed condition and
fail unless no record matches. -/
def assertNoneMatching (c : String) (p : Val → Except String Bool) (msg : String)
    (t : Table) : Except String Table := do
  let n ← countMatchingE c p t
  if n = 0 then Except.ok t else Except.error msg

/-- `assert df[c].value_counts(normalize=True)[0] == 1` on a boolean flag
column: the proportion of `False` among the non-null values must be 1.
An empty count series makes the `[0]` lookup itself raise. -/
def flagCheck (c : String) (msg : String) (t : Table) : Except String Table :=
  if hasCol t c then
    if (nonNullVals t c).isEmpty then
      Except.error ("KeyError: value_counts of " ++ c)
    else if (nonNullVals t c).all (fun v => scalarEq v (Val.b false)) then
      Except.ok t
    else Except.error msg
  else Except.error ("KeyError: " ++ c)

/-- `assert df["lang"].value_counts(normalize=True)[0] == 1` on a string
column: positionally, the most common value's proportion must be 1, i.e.
all non-null values are equal; empty counts make the lookup raise. -/
def uniformCheck (c : String) (msg : String) (t : Table) : Except String Table :=
  if hasCol t c then
    match nonNullVals t c with
    | [] => Except.error ("IndexError: value_counts of " ++ c)
    | v :: rest =>
        if rest.all (fun w => scalarEq v w) then Except.ok t else Except.error msg
  else Except.error ("KeyError: " ++ c)

/-- The post-removal phase of a removal step that performs no re-query at
all (`__drop_memorabilia`, `__drop_duplicated_mdfc_cards`,
`__drop_special_rarity_cards`, `__drop_no_price_cards` have no `assert`
after their `df.drop`). -/
def noCheckPhase (t : Table) : Except String Table :=
  Except.ok t

/-! ## Filtering stage (`clean=True`)

Each `__drop_*` method of `ScryfallDataWrangler`, in the order `wrangle`
calls them.  The pipeline state is the table paired with the accumulated
`self.__cols_to_drop` list. -/

/-- Pipeline state: table plus the `__cols_to_drop` accumulator. -/
abbrev TS := Table × List String

/-- `df[c] == True` as an element-wise predicate (null compares false). -/
def isTruePred : Val → Except String Bool :=
  fun v => Except.ok (scalarEq v (Val.b true))

/-- `df[c] == lit` for a string literal. -/
def strEqPred (lit : String) : Val → Except String Bool :=
  fun v => Except.ok (scalarEq v (Val.s lit))

/-- `lambda x: pat in x` — TypeError on a non-string (e.g. NaN). -/
def containsPred (pat : String) : Val → Except String Bool
  | Val.s x => Except.ok (strContains x pat)
  | _ => Except.error "TypeError: argument of type 'float' is not iterable"

/-- `lambda set_name: "Un" in set_name[0:2]` — TypeError on a non-string. -/
def unSetPred : Val → Except String Bool
  | Val.s x => Except.ok (charsHaveInfix "Un".toList (x.toList.take 2))
  | _ => Except.error "TypeError: 'float' object is not subscriptable"

/-- The shared shape of the seven boolean-flag removal methods
(`__drop_reprints`, `__drop_digital_cards`, `__drop_reserved_list`,
`__drop_oversized_cards`, `__drop_promo_cards`, `__drop_variation_cards`,
`__drop_full_art_cards`): drop the `flag == True` rows, assert the flag
column now shows only `False`, queue the flag column for dropping. -/
def flagDropStep (c : String) (msg : String) (x : TS) : Except String TS := do
  let t1 ← dropRowsWhere c isTruePred x.1
  let t2 ← flagCheck c msg t1
  Except.ok (t2, x.2 ++ [c])

/-- `__drop_reprints`. -/
def dropReprints (x : TS) : Except String TS :=
  flagDropStep "reprint" "AssertionError: reprint" x

/-- `__drop_basic_lands`: drop rows whose type line contains "Basic" and
re-assert none remain. -/
def dropBasicLands (x : TS) : Except String TS := do
  let t1 ← dropRowsWhere "type_line" (containsPred "Basic") x.1
  let t2 ← assertNoneMatching "type_line" (containsPred "Basic")
      "AssertionError: basic lands" t1
  Except.ok (t2, x.2)

/-- `__drop_tokens`: drop type-line "Token" rows (with re-assert), then
`layout == "token"` and `set_type == "token"` rows (no re-assert). -/
def dropTokens (x : TS) : Except String TS := do
  let t1 ← dropRowsWhere "type_line" (containsPred "Token") x.1
  let t2 ← assertNoneMatching "type_line" (containsPred "Token")
      "AssertionError: tokens" t1
  let t3 ← dropRowsWhere "layout" (strEqPred "token") t2
  let t4 ← dropRowsWhere "set_type" (strEqPred "token") t3
  Except.ok (t4, x.2)

/-- `__drop_un_sets`: drop rows whose set name starts with "Un" (with
re-assert), then silver-bordered and "funny" set-type rows. -/
def dropUnSets (x : TS) : Except String TS := do
  let t1 ← dropRowsWhere "set_name" unSetPred x.1
  let t2 ← assertNoneMatching "set_name" unSetPred "AssertionError: un sets" t1
  let t3 ← dropRowsWhere "border_color" (strEqPred "silver") t2
  let t4 ← dropRowsWhere "set_type" (strEqPred "funny") t3
  Except.ok (t4, x.2)

/-- `__drop_digital_cards`. -/
def dropDigitalCards (x : TS) : Except String TS :=
  flagDropStep "digital" "AssertionError: digital" x

/-- `__drop_reserved_list`. -/
def dropReservedList (x : TS) : Except String TS :=
  flagDropStep "reserved" "AssertionError: reserved" x

/-- `__drop_languages`: drop rows with `lang != "en"` (NaN also compares
unequal, so rows with a missing language are removed too), assert the
language column is now uniform, queue it for dropping. -/
def dropLanguages (x : TS) : Except String TS := do
  let t1 ← dropRowsWhere "lang"
      (fun v => Except.ok (!(scalarEq v (Val.s "en")))) x.1
  let t2 ← uniformCheck "lang" "AssertionError: lang" t1
  Except.ok (t2, x.2 ++ ["lang"])

/-- `__drop_oversized_cards`. -/
def dropOversizedCards (x : TS) : Except String TS :=
  flagDropStep "oversized" "AssertionError: oversized" x

/-- `__drop_promo_cards`. -/
def dropPromoCards (x : TS) : Except String TS :=
  flagDropStep "promo" "AssertionError: promo" x

/-- `__drop_variation_cards`. -/
def dropVariationCards (x : TS) : Except String TS :=
  flagDropStep "variation" "AssertionError: variation" x

/-- `__drop_memorabilia`: removal only — the method body ends right after
`df.drop`; there is no assert, so its post-removal phase is `noCheckPhase`. -/
def dropMemorabilia (x : TS) : Except String TS := do
  let t1 ← dropRowsWhere "set_type" (strEqPred "memorabilia") x.1
  let t2 ← noCheckPhase t1
  Except.ok (t2, x.2)

/-- `__drop_full_art_cards`. -/
def dropFullArtCards (x : TS) : Except String TS :=
  flagDropStep "full_art" "AssertionError: full_art" x

/-- `__drop_duplicated_mdfc_cards`: drop rows with
`layout == "modal_dfc"` and `booster == False`; no assert afterwards. -/
def dropDuplicatedMdfcCards (x : TS) : Except String TS := do
  let t1 ← dropRowsWhereRow ["layout", "booster"]
      (fun r => scalarEq (rowGet r "layout") (Val.s "modal_dfc") &&
                scalarEq (rowGet r "booster") (Val.b false)) x.1
  let t2 ← noCheckPhase t1
  Except.ok (t2, x.2)

/-- `__drop_special_rarity_cards`: drop `rarity == "special"` rows; no
assert afterwards. -/
def dropSpecialRarityCards (x : TS) : Except String TS := do
  let t1 ← dropRowsWhere "rarity" (strEqPred "special") x.1
  let t2 ← noCheckPhase t1
  Except.ok (t2, x.2)

/-- `__drop_leakage`: queue the leakage columns for dropping. -/
def dropLeakage (x : TS) : Except String TS :=
  Except.ok (x.1, x.2 ++ ["edhrec_rank", "penny_rank", "collector_number"])

/-- `__drop_unusable_cols`: queue the fixed unusable-column list (the
source lists "n_restricted_mana" twice). -/
def dropUnusableCols (x : TS) : Except String TS :=
  Except.ok (x.1, x.2 ++
    ["highres_image", "image_status", "games", "foil", "nonfoil", "finishes",
     "set", "artist", "border_color", "story_spotlight", "power", "toughness",
     "oracle_text", "colors",
     "n_restricted_mana", "mana_cost", "color_identity", "keywords",
     "legalities", "type_bool_list", "color_bool_list", "n_restricted_mana",
     "id", "name", "type_line"])

/-- The columns `__drop_null_cols` selects: null count at least half the
row count (`isnull().sum() >= shape[0] * 0.5`). -/
def dropNullNames (t : Table) : List String :=
  t.cols.filter (fun c => t.rows.length ≤ 2 * countNullIn t c)

/-- `__drop_null_cols`: drop every selected column. -/
def dropNullCols (t : Table) : Table :=
  dropColsByName (dropNullNames t) t

def dropNullColsStep (x : TS) : Except String TS :=
  Except.ok (dropNullCols x.1, x.2)

/-- `__drop_no_price_cards`: drop rows whose `price_usd` is null; no
assert afterwards.  Raises KeyError when the `price_usd` column does not
exist (which is the case on raw data, since `__create_price_usd_col` only
runs in the later derivation stage). -/
def dropNoPriceCards (x : TS) : Except String TS := do
  let t1 ← dropRowsWhere "price_usd" (fun v => Except.ok (isNullV v)) x.1
  let t2 ← noCheckPhase t1
  Except.ok (t2, x.2)

/-- The whole filtering stage, in `wrangle`'s order. -/
def cleanStage (x : TS) : Except String TS :=
  dropReprints x >>= dropBasicLands >>= dropTokens >>= dropUnSets >>=
  dropDigitalCards >>= dropReservedList >>= dropLanguages >>=
  dropOversizedCards >>= dropPromoCards >>= dropVariationCards >>=
  dropMemorabilia >>= dropFullArtCards >>= dropDuplicatedMdfcCards >>=
  dropSpecialRarityCards >>= dropLeakage >>= dropUnusableCols >>=
  dropNullColsStep >>= dropNoPriceCards

/-! ## Derivation stage (`create_new_cols=True`) -/

/-- `self.__main_card_types`. -/
def mainCardTypes : List String :=
  ["Artifact", "Creature", "Enchantment", "Instant",
   "Land", "Planeswalker", "Sorcery", "Tribal"]

/-- `self.__colors`. -/
def manaColors : List String := ["W", "U", "B", "R", "G"]

/-- The per-record type vector of `__create_type_bool_list`:
`[1 if card_type in type_line else 0 for card_type in main_card_types]`. -/
def typeBoolList (typeLine : String) : List Nat :=
  mainCardTypes.map (fun cardType => if strContains typeLine cardType then 1 else 0)

/-- The per-record colour vector of `__create_color_bool_list`:
`[1 if color in color_id else 0 for color in colors]` where `color_id`
is the record's colour-identity list. -/
def colorBoolList (colorId : List Val) : List Nat :=
  manaColors.map (fun color =>
    if colorId.any (fun v => scalarEq v (Val.s color)) then 1 else 0)

/-- Is a character one of the five colour letters `[WUBRG]`? -/
def isColorChar (c : Char) : Bool :=
  c = 'W' || c = 'U' || c = 'B' || c = 'R' || c = 'G'

/-- Scanner equivalent to counting `re.findall` matches of the pattern
"brace, lazily anything, a colour letter, lazily anything, closing brace"
in the mana-cost string: mode 0 scans for an opening brace, mode 1 for the
first colour letter after it, mode 2 for the first closing brace after
that; each completed match bumps the count and resumes scanning after its
closing brace, exactly as the lazy regex's leftmost non-overlapping
matches do. -/
def countRestrictedGo : Nat → Nat → List Char → Nat
  | _, acc, [] => acc
  | 0, acc, c :: rest => countRestrictedGo (if c = '{' then 1 else 0) acc rest
  | 1, acc, c :: rest => countRestrictedGo (if isColorChar c then 2 else 1) acc rest
  | _, acc, c :: rest =>
      if c = '}' then countRestrictedGo 0 (acc + 1) rest
      else countRestrictedGo 2 acc rest

/-- Number of restricted (coloured) mana symbols in a mana-cost string
(`len(re.findall(...))` in `__create_n_restricted_mana`). -/
def countRestricted (cs : List Char) : Nat :=
  countRestrictedGo 0 0 cs

/-- The row lambda of `__create_restricted_mana_col`:
`n_restricted_mana / cmc if cmc != 0 else 0`. -/
def restrictedManaFun (n cmc : Rat) : Rat :=
  if cmc ≠ 0 then n / cmc else 0

/-- Parse a decimal literal the way `astype(float)` parses a price string
such as "0.25" (only the digits-dot-digits forms that occur in the data). -/
def parseNatDigits : List Char → Option Nat :=
  List.foldl (fun acc c =>
    match acc with
    | none => none
    | some a => if c.isDigit then some (a * 10 + (c.toNat - 48)) else none)
    (some 0)

def parseDecimal (str : String) : Option Rat :=
  match str.splitOn "." with
  | [a] => (parseNatDigits a.toList).map (fun n => (n : Rat))
  | [a, f] => do
      let x ← parseNatDigits a.toList
      let y ← parseNatDigits f.toList
      pure ((x : Rat) + (y : Rat) / ((10 : Rat) ^ f.length))
  | _ => none

/-- `.astype(float)` on one cell: NaN stays NaN, numbers stay, booleans
cast to 0/1, strings are parsed, anything else raises. -/
def toFloatV : Val → Except String Val
  | Val.null => Except.ok Val.null
  | Val.num q => Except.ok (Val.num q)
  | Val.b x => Except.ok (Val.num (if x then 1 else 0))
  | Val.s str =>
      match parseDecimal str with
      | some q => Except.ok (Val.num q)
      | none => Except.error "ValueError: could not convert string to float"
  | _ => Except.error "TypeError: float() argument"

/-- Sum of a Python list of numbers (`sum(lst)`); TypeError otherwise. -/
def valListSumE : List Val → Except String Rat
  | [] => Except.ok 0
  | Val.num q :: rest => do
      let r ← valListSumE rest
      Except.ok (q + r)
  | _ => Except.error "TypeError: unsupported operand type for +"

/-- `__create_is_legendary_col`: fill missing type lines with "" in place,
then flag type lines containing "Legendary". -/
def createIsLegendaryCol (x : TS) : Except String TS := do
  let t1 ← fillNA "type_line" (Val.s "") x.1
  let t2 ← setColFromCol "is_legendary" "type_line"
      (fun v =>
        match v with
        | Val.s tl => Except.ok (Val.b (strContains tl "Legendary"))
        | _ => Except.error "TypeError: argument of type 'float' is not iterable")
      t1
  Except.ok (t2, x.2)

/-- `__create_type_bool_list`. -/
def createTypeBoolList (x : TS) : Except String TS := do
  let t1 ← setColFromCol "type_bool_list" "type_line"
      (fun v =>
        match v with
        | Val.s tl => Except.ok (Val.list ((typeBoolList tl).map (fun n => Val.num n)))
        | _ => Except.error "TypeError: argument of type 'float' is not iterable")
      x.1
  Except.ok (t1, x.2)

/-- `__create_n_types_col`: `sum(type_list)`. -/
def createNTypesCol (x : TS) : Except String TS := do
  let t1 ← setColFromCol "n_types" "type_bool_list"
      (fun v =>
        match v with
        | Val.list xs => do
            let q ← valListSumE xs
            Except.ok (Val.num q)
        | _ => Except.error "TypeError: 'float' object is not iterable")
      x.1
  Except.ok (t1, x.2)

/-- The cell lambda of `__create_bool_type_cols`:
`True if type_list[i] == 1 else False` (the vectors built by
`__create_type_bool_list` always have length 8, so the index is in range). -/
def typeFlagAt (i : Nat) : Val → Except String Val
  | Val.list xs => Except.ok (Val.b (scalarEq (xs.getD i (Val.num 0)) (Val.num 1)))
  | _ => Except.error "TypeError: 'float' object is not subscriptable"

/-- `__create_bool_type_cols`: one `is_<type>` column per main card type. -/
def createBoolTypeCols (x : TS) : Except String TS := do
  let t1 ← mainCardTypes.enum.foldlM
      (fun acc p =>
        setColFromCol ("is_" ++ p.2.toLower) "type_bool_list" (typeFlagAt p.1) acc)
      x.1
  Except.ok (t1, x.2)

/-- `__create_color_bool_list`. -/
def createColorBoolList (x : TS) : Except String TS := do
  let t1 ← setColFromCol "color_bool_list" "color_identity"
      (fun v =>
        match v with
        | Val.list ci => Except.ok (Val.list ((colorBoolList ci).map (fun n => Val.num n)))
        | _ => Except.error "TypeError: 'float' object is not iterable")
      x.1
  Except.ok (t1, x.2)

/-- `__create_n_colors_col`: `sum(color_list)`. -/
def createNColorsCol (x : TS) : Except String TS := do
  let t1 ← setColFromCol "n_colors" "color_bool_list"
      (fun v =>
        match v with
        | Val.list xs => do
            let q ← valListSumE xs
            Except.ok (Val.num q)
        | _ => Except.error "TypeError: 'float' object is not iterable")
      x.1
  Except.ok (t1, x.2)

/-- English names of the five colours (`color_dict` in
`__create_bool_color_cols`), in `self.__colors` order. -/
def colorNames : List String := ["white", "blue", "black", "red", "green"]

/-- `__create_bool_color_cols`: one `is_<color>` column per colour, then
`is_colorless` (true iff the colour vector sums to zero). -/
def createBoolColorCols (x : TS) : Except String TS := do
  let t1 ← colorNames.enum.foldlM
      (fun acc p =>
        setColFromCol ("is_" ++ p.2) "color_bool_list" (typeFlagAt p.1) acc)
      x.1
  let t2 ← setColFromCol "is_colorless" "color_bool_list"
      (fun v =>
        match v with
        | Val.list xs => do
            let q ← valListSumE xs
            Except.ok (Val.b (decide (q = 0)))
        | _ => Except.error "TypeError: 'float' object is not iterable")
      t1
  Except.ok (t2, x.2)

/-- `__create_n_restricted_mana`: fill missing mana costs with a zero-cost
token, then count coloured symbols. -/
def createNRestrictedMana (x : TS) : Except String TS := do
  let t1 ← fillNA "mana_cost" (Val.s "{0}") x.1
  let t2 ← setColFromCol "n_restricted_mana" "mana_cost"
      (fun v =>
        match v with
        | Val.s m => Except.ok (Val.num ((countRestricted m.toList : Nat) : Rat))
        | _ => Except.error "TypeError: expected string or bytes-like object")
      t1
  Except.ok (t2, x.2)

/-- `__create_restricted_mana_col`: per-row
`n_restricted_mana / cmc if cmc != 0 else 0` (a NaN cmc compares unequal
to 0 and yields a NaN ratio; a missing attribute raises). -/
def createRestrictedManaCol (x : TS) : Except String TS := do
  let t1 ← setColFromRowE "restricted_mana"
      (fun r =>
        match List.lookup "n_restricted_mana" r, List.lookup "cmc" r with
        | some (Val.num n), some (Val.num cmc) =>
            Except.ok (Val.num (restrictedManaFun n cmc))
        | some (Val.num _), some Val.null => Except.ok Val.null
        | some _, some _ => Except.error "TypeError: unsupported operand type"
        | _, _ => Except.error "AttributeError: no such attribute")
      x.1
  Except.ok (t1, x.2)

/-- `__create_format_legal_cols`: take the format keys from the first
record's legality mapping and create one `<format>_legal` column each. -/
def createFormatLegalCols (x : TS) : Except String TS := do
  let first ←
    if hasCol x.1 "legalities" then
      match x.1.rows with
      | [] => Except.error "IndexError: index 0 is out of bounds"
      | r :: _ => Except.ok (rowGet r "legalities")
    else Except.error "KeyError: legalities"
  match first with
  | Val.dict kvs => do
      let t1 ← (kvs.map Prod.fst).foldlM
        (fun acc k =>
          setColFromCol (k ++ "_legal") "legalities"
            (fun v =>
              match v with
              | Val.dict m =>
                  match List.lookup k m with
                  | some w => Except.ok w
                  | none => Except.error ("KeyError: " ++ k)
              | _ => Except.error "TypeError: 'float' object is not iterable")
            acc)
        x.1
      Except.ok (t1, x.2)
  | _ => Except.error "TypeError: cannot convert to dict"

/-- `__create_has_flavor_text_col`: `np.invert(df["flavor_text"].isna())`,
then queue the flavour-text column for dropping. -/
def createHasFlavorTextCol (x : TS) : Except String TS := do
  let t1 ← setColFromCol "has_flavor_text" "flavor_text"
      (fun v => Except.ok (Val.b (!(isNullV v)))) x.1
  Except.ok (t1, x.2 ++ ["flavor_text"])

/-- `__create_n_keywords_col`: `len(list(key_list))`. -/
def createNKeywordsCol (x : TS) : Except String TS := do
  let t1 ← setColFromCol "n_keywords" "keywords"
      (fun v =>
        match v with
        | Val.list xs => Except.ok (Val.num (xs.length : Rat))
        | _ => Except.error "TypeError: 'float' object is not iterable")
      x.1
  Except.ok (t1, x.2)

/-- `__create_price_usd_col`: extract `prices["usd"]`, cast to float,
queue the original prices mapping for dropping. -/
def createPriceUsdCol (x : TS) : Except String TS := do
  let t1 ← setColFromCol "price_usd" "prices"
      (fun v =>
        match v with
        | Val.dict m =>
            match List.lookup "usd" m with
            | some w => toFloatV w
            | none => Except.error "KeyError: usd"
        | _ => Except.error "TypeError: 'float' object is not subscriptable")
      x.1
  Except.ok (t1, x.2 ++ ["prices"])

/-- The whole derivation stage, in `wrangle`'s order. -/
def createStage (x : TS) : Except String TS :=
  createIsLegendaryCol x >>= createTypeBoolList >>= createNTypesCol >>=
  createBoolTypeCols >>= createColorBoolList >>= createNColorsCol >>=
  createBoolColorCols >>= createNRestrictedMana >>= createRestrictedManaCol >>=
  createFormatLegalCols >>= createHasFlavorTextCol >>= createNKeywordsCol >>=
  createPriceUsdCol

/-! ## Tail of the pipeline (always runs) -/

/-- `__drop_list_dict_cols`: sample the first non-null value of every
column (IndexError on an all-null column) and flag the columns whose
sample is a list or a dict. -/
def listDictColsE (t : Table) : Except String (List String) := do
  let samples ← t.cols.mapM
    (fun c =>
      match firstNonNull t c with
      | some v => Except.ok (c, v)
      | none => Except.error "IndexError: single positional indexer is out-of-bounds")
  Except.ok ((samples.filter (fun cv => isListDictV cv.2)).map Prod.fst)

/-- `__drop_uri_cols`: column names containing "uri". -/
def uriColsOf (t : Table) : List String :=
  t.cols.filter (fun c => strContains c "uri")

/-- `__drop_id_cols`: column names whose last four characters contain
"_id" (`"_id" in column[-4:]`). -/
def idColsOf (t : Table) : List String :=
  t.cols.filter (fun c => charsHaveInfix "_id".toList (c.toList.drop (c.toList.length - 4)))

/-- `__clean_drop_cols`: restrict the accumulated drop list to the columns
actually present. -/
def cleanDropColsOf (drops : List String) (t : Table) : List String :=
  drops.filter (fun c => t.cols.contains c)

/-- Key order for `__sort_values_by_release_date` (ascending release date,
missing dates last, as pandas' `na_position="last"`). -/
def releasedLE (a b : Val) : Bool :=
  match a, b with
  | Val.s x, Val.s y => decide (x ≤ y)
  | Val.null, Val.null => true
  | Val.null, _ => false
  | _, _ => true

def insertRowLE (le : Row → Row → Bool) (r : Row) : List Row → List Row
  | [] => [r]
  | y :: ys => if le r y then r :: y :: ys else y :: insertRowLE le r ys

def sortRowsLE (le : Row → Row → Bool) : List Row → List Row
  | [] => []
  | r :: rs => insertRowLE le r (sortRowsLE le rs)

/-- `__sort_values_by_release_date`. -/
def sortByReleaseDate (t : Table) : Except String Table :=
  if hasCol t "released_at" then
    Except.ok ⟨t.cols,
      sortRowsLE (fun r1 r2 => releasedLE (rowGet r1 "released_at") (rowGet r2 "released_at"))
        t.rows⟩
  else Except.error "KeyError: released_at"

/-- The unconditional tail of `wrangle`: flag list/dict, uri and id
columns, restrict the drop list to present columns, sort by release date
and return the table minus the collected columns. -/
def tailStage (x : TS) : Except String Table := do
  let flagged ← listDictColsE x.1
  let sorted ← sortByReleaseDate x.1
  Except.ok (dropColsByName
    (cleanDropColsOf (((x.2 ++ flagged) ++ uriColsOf x.1) ++ idColsOf x.1) x.1)
    sorted)

/-- Everything `wrangle` does before its unconditional tail. -/
def preTail (t : Table) (clean createNewCols : Bool) : Except String TS := do
  let x1 ← if clean then cleanStage (t, []) else Except.ok (t, [])
  if createNewCols then createStage x1 else Except.ok x1

/-- `ScryfallDataWrangler.wrangle` on an already-loaded table, for a
freshly-constructed wrangler (`__cols_to_drop` starts empty).  The
`include_foils`, `include_alt_arts`, `include_unsets` and `language`
parameters are declared by the source but never read in its body. -/
def wrangle (t : Table) (clean createNewCols : Bool)
    (include_foils include_alt_arts include_unsets : Bool) (language : String) :
    Except String Table :=
  preTail t clean createNewCols >>= tailStage

/-! ## Fetcher (`ScryfallAPI`) -/

/-- The listing response, as far as the fetcher inspects it: the HTTP
status code and the optional `download_uri` field of the JSON body. -/
structure ListingResp where
  status : Nat
  downloadUri : Option String

/-- The state `ScryfallAPI.__init__` builds when it succeeds. -/
structure Fetcher where
  downloadUri : String
  datasetFile : String

/-- `os.path.basename`. -/
def basenameOf (u : String) : String :=
  (u.splitOn "/").getLastD u

def statusAssertMsg : String :=
  "AssertionError: request status code should be 200"

def missingUriMsg : String := "KeyError: download_uri"

/-- `ScryfallAPI.__init__`: asserts a 200 status (AssertionError
otherwise), then reads `download_uri` from the body (KeyError if absent)
and derives the local cache file name. -/
def scryfallInit (resp : ListingResp) : Except String Fetcher :=
  if resp.status = 200 then
    match resp.downloadUri with
    | some u => Except.ok ⟨u, basenameOf u⟩
    | none => Except.error missingUriMsg
  else Except.error statusAssertMsg

/-- The structured result dict `get_dataset` returns. -/
structure RespStatus where
  success : Bool
  message : String

/-- The filesystem/network effects `get_dataset` can observe: whether the
cache file already exists, and the outcome of the chunked download plus
the final existence assert (an `Except.error` carries the exception
message the `except` block would stringify). -/
structure FSState where
  existsF : Bool
  download : Except String Unit

/-- `ScryfallAPI.get_dataset`: skip the download when the cache file is
present, otherwise download; every exception inside the `try` block is
caught and surfaced as a `success=False` structured result. -/
def getDataset (f : Fetcher) (fs : FSState) : RespStatus :=
  if fs.existsF then
    ⟨true, "Existing file '" ++ f.datasetFile ++ "' is the most updated version."⟩
  else
    match fs.download with
    | Except.ok _ => ⟨true, "Successfully downloaded '" ++ f.datasetFile ++ "'."⟩
    | Except.error e => ⟨false, e⟩

/-- Outcome of a whole fetch interaction: either an exception escaped to
the caller, or a structured result was returned. -/
inductive FetchOutcome where
  | raised : String → FetchOutcome
  | completed : RespStatus → FetchOutcome

/-- Construct the fetcher from the listing response, then run
`get_dataset`; a construction failure escapes as a raised exception. -/
def fetchInteraction (resp : ListingResp) (fs : FSState) : FetchOutcome :=
  match scryfallInit resp with
  | Except.error e => FetchOutcome.raised e
  | Except.ok f => FetchOutcome.completed (getDataset f fs)

/-! ## Concrete input tables -/

/-- Shared raw columns of the small test tables. -/
def rawCols : List String :=
  ["reprint", "type_line", "layout", "set_type", "set_name", "border_color",
   "digital", "reserved", "lang", "oversized", "promo", "variation",
   "full_art", "booster", "rarity", "cmc", "mana_cost", "color_identity",
   "legalities", "flavor_text", "keywords", "prices", "released_at"]

/-- A well-formed raw record: every flag false, English, a normal
expansion rarity, a prices mapping with a usd entry. -/
def rowA : Row :=
  [("reprint", Val.b false), ("type_line", Val.s "Creature — Bear"),
   ("layout", Val.s "normal"), ("set_type", Val.s "expansion"),
   ("set_name", Val.s "Alpha"), ("border_color", Val.s "black"),
   ("digital", Val.b false), ("reserved", Val.b false),
   ("lang", Val.s "en"), ("oversized", Val.b false),
   ("promo", Val.b false), ("variation", Val.b false),
   ("full_art", Val.b false), ("booster", Val.b true),
   ("rarity", Val.s "common"), ("cmc", Val.num 2),
   ("mana_cost", Val.s "{1}{G}"),
   ("color_identity", Val.list [Val.s "G"]),
   ("legalities", Val.dict [("standard", Val.s "legal")]),
   ("flavor_text", Val.s "first flavor"),
   ("keywords", Val.list []),
   ("prices", Val.dict [("usd", Val.s "0.25")]),
   ("released_at", Val.s "2020-01-01")]

/-- Like `rowA` but with a missing reprint flag, a null usd price inside
the prices mapping, and a zero converted mana cost. -/
def rowB : Row :=
  [("reprint", Val.null), ("type_line", Val.s "Instant"),
   ("layout", Val.s "normal"), ("set_type", Val.s "expansion"),
   ("set_name", Val.s "Beta"), ("border_color", Val.s "black"),
   ("digital", Val.b false), ("reserved", Val.b false),
   ("lang", Val.s "en"), ("oversized", Val.b false),
   ("promo", Val.b false), ("variation", Val.b false),
   ("full_art", Val.b false), ("booster", Val.b true),
   ("rarity", Val.s "rare"), ("cmc", Val.num 0),
   ("mana_cost", Val.s "{0}"),
   ("color_identity", Val.list [Val.s "U"]),
   ("legalities", Val.dict [("standard", Val.s "legal")]),
   ("flavor_text", Val.s "second flavor"),
   ("keywords", Val.list []),
   ("prices", Val.dict [("usd", Val.null)]),
   ("released_at", Val.s "2021-05-05")]

/-- A well-formed raw one-record table: it has the raw `prices` mapping
column but no derived `price_usd` column. -/
def rawTbl : Table := ⟨rawCols, [rowA]⟩

/-- A two-record table that additionally carries a (non-null) `price_usd`
column, so that a `clean=True` run can get past `__drop_no_price_cards`
and complete. -/
def tblClean : Table :=
  ⟨rawCols ++ ["price_usd"],
   [rowA ++ [("price_usd", Val.num 1)], rowB ++ [("price_usd", Val.num 2)]]⟩


/-- A table with a constant scalar column "foo": no pipeline step drops a
column for having a single distinct value. -/
def t4 : Table :=
  ⟨["foo", "released_at"],
   [[("foo", Val.num 7), ("released_at", Val.s "2020-01-01")],
    [("foo", Val.num 7), ("released_at", Val.s "2020-02-02")]]⟩

/-- The spec's worked example record: type line
"Legendary Creature — Human Wizard", colour identity ["U","R"], mana cost
"{1}{U}{R}", converted mana cost 3 (plus the extra fields the derivation
stage reads). -/
def t9 : Table :=
  ⟨["type_line", "mana_cost", "cmc", "color_identity", "legalities",
    "flavor_text", "keywords", "prices", "released_at"],
   [[("type_line", Val.s "Legendary Creature — Human Wizard"),
     ("mana_cost", Val.s "{1}{U}{R}"),
     ("cmc", Val.num 3),
     ("color_identity", Val.list [Val.s "U", Val.s "R"]),
     ("legalities", Val.dict [("standard", Val.s "legal")]),
     ("flavor_text", Val.s "wizardly"),
     ("keywords", Val.list []),
     ("prices", Val.dict [("usd", Val.s "1.00")]),
     ("released_at", Val.s "2019-03-03")]]⟩


/-! ## General lemmas about the combinators -/

theorem exceptBindOk {α β : Type} {a : Except String α} {f : α → Except String β}
    {y : β} (h : a >>= f = Except.ok y) :
    ∃ b, a = Except.ok b ∧ f b = Except.ok y := by
  cases a with
  | error e => simp [Bind.bind, Except.bind] at h
  | ok b => exact ⟨b, rfl, by simpa [Bind.bind, Except.bind] using h⟩

theorem scalarEq_btrue {v : Val} (h : scalarEq v (Val.b true) = true) :
    v = Val.b true := by
  cases v <;> simp_all [scalarEq]

theorem scalarEq_sLit {v : Val} {lit : String}
    (h : scalarEq v (Val.s lit) = true) : v = Val.s lit := by
  cases v <;> simp_all [scalarEq]

theorem filterRowsOutE_mem {p : Row → Except String Bool} :
    ∀ {rs rs' : List Row}, filterRowsOutE p rs = Except.ok rs' →
      ∀ r ∈ rs', r ∈ rs ∧ p r = Except.ok false := by
  intro rs
  induction rs with
  | nil =>
      intro rs' h r hr
      unfold filterRowsOutE at h
      cases h
      simp at hr
  | cons r0 rs ih =>
      intro rs' h r hr
      unfold filterRowsOutE at h
      cases hb : p r0 with
      | error e => rw [hb] at h; simp [Bind.bind, Except.bind] at h
      | ok bad =>
          rw [hb] at h
          cases hrest : filterRowsOutE p rs with
          | error e => rw [hrest] at h; simp [Bind.bind, Except.bind] at h
          | ok rest =>
              rw [hrest] at h
              simp only [Bind.bind, Except.bind, Except.ok.injEq] at h
              cases bad with
              | true =>
                  subst h
                  have := ih hrest r hr
                  exact ⟨List.mem_cons_of_mem _ this.1, this.2⟩
              | false =>
                  subst h
                  rcases List.mem_cons.mp hr with hEq | hMem
                  · subst hEq; exact ⟨List.mem_cons_self _ _, hb⟩
                  · have := ih hrest r hMem
                    exact ⟨List.mem_cons_of_mem _ this.1, this.2⟩

theorem dropRowsWhere_ok {c : String} {p : Val → Except String Bool} {t t' : Table}
    (h : dropRowsWhere c p t = Except.ok t') :
    t'.cols = t.cols ∧ ∀ r ∈ t'.rows, r ∈ t.rows ∧ p (rowGet r c) = Except.ok false := by
  unfold dropRowsWhere at h
  by_cases hc : hasCol t c
  · rw [if_pos hc] at h
    obtain ⟨rows', h1, h2⟩ := exceptBindOk h
    cases h2
    exact ⟨rfl, filterRowsOutE_mem h1⟩
  · rw [if_neg hc] at h
    exact absurd h (by simp)

theorem dropRowsWhereRow_ok {needed : List String} {p : Row → Bool} {t t' : Table}
    (h : dropRowsWhereRow needed p t = Except.ok t') :
    t'.cols = t.cols ∧ ∀ r ∈ t'.rows, r ∈ t.rows := by
  unfold dropRowsWhereRow at h
  by_cases hc : needed.all (fun c => hasCol t c)
  · rw [if_pos hc] at h
    cases h
    exact ⟨rfl, fun r hr => (List.mem_filter.mp hr).1⟩
  · rw [if_neg hc] at h
    exact absurd h (by simp)

theorem flagCheck_ok {c m : String} {t t' : Table}
    (h : flagCheck c m t = Except.ok t') : t' = t := by
  unfold flagCheck at h
  split_ifs at h <;> first
    | exact (Except.ok.inj h).symm
    | exact absurd h (by simp)

theorem uniformCheck_ok {c m : String} {t t' : Table}
    (h : uniformCheck c m t = Except.ok t') : t' = t := by
  unfold uniformCheck at h
  by_cases hc : hasCol t c
  · rw [if_pos hc] at h
    cases hv : nonNullVals t c with
    | nil => rw [hv] at h; exact absurd h (by simp)
    | cons v rest =>
        rw [hv] at h
        replace h : (if rest.all (fun w => scalarEq v w) then Except.ok t
            else Except.error m) = Except.ok t' := h
        by_cases hall : rest.all (fun w => scalarEq v w)
        · rw [if_pos hall] at h
          exact (Except.ok.inj h).symm
        · rw [if_neg hall] at h
          exact absurd h (by simp)
  · rw [if_neg hc] at h
    exact absurd h (by simp)

theorem assertNoneMatching_ok {c : String} {p : Val → Except String Bool}
    {m : String} {t t' : Table}
    (h : assertNoneMatching c p m t = Except.ok t') : t' = t := by
  unfold assertNoneMatching at h
  obtain ⟨n, _, h2⟩ := exceptBindOk h
  by_cases hn : n = 0
  · rw [if_pos hn] at h2
    exact (Except.ok.inj h2).symm
  · rw [if_neg hn] at h2
    exact absurd h2 (by simp)

theorem sortByReleaseDate_ok {t t' : Table}
    (h : sortByReleaseDate t = Except.ok t') : t'.cols = t.cols := by
  unfold sortByReleaseDate at h
  by_cases hc : hasCol t "released_at"
  · rw [if_pos hc] at h
    cases h
    rfl
  · rw [if_neg hc] at h
    exact absurd h (by simp)

theorem mapM_ok_mem {α β : Type} {f : α → Except String β} :
    ∀ {l : List α} {ys : List β}, l.mapM f = Except.ok ys →
      ∀ x ∈ l, ∃ y, f x = Except.ok y ∧ y ∈ ys := by
  intro l
  induction l with
  | nil =>
      intro ys h x hx
      simp at hx
  | cons a l ih =>
      intro ys h x hx
      rw [List.mapM_cons] at h
      cases ha : f a with
      | error e => rw [ha] at h; simp [Bind.bind, Except.bind] at h
      | ok b =>
          rw [ha] at h
          cases hl : l.mapM f with
          | error e => rw [hl] at h; simp [Bind.bind, Except.bind] at h
          | ok bs =>
              rw [hl] at h
              simp only [Bind.bind, Except.bind, pure, Except.pure,
                Except.ok.injEq] at h
              subst h
              rcases List.mem_cons.mp hx with hEq | hMem
              · subst hEq; exact ⟨b, ha, List.mem_cons_self _ _⟩
              · obtain ⟨y, hy, hys⟩ := ih hl x hMem
                exact ⟨y, hy, List.mem_cons_of_mem _ hys⟩

/-! ## C10 — the four extra options have no effect -/

/-- C10 (confirmed).  For a fixed input table and fixed `clean` /
`create_new_cols` choice, any two `wrangle` calls that differ only in
`include_foils`, `include_alt_arts`, `include_unsets` or `language`
return identical results: those four declared parameters are never read
by the body. -/
theorem C10_params_no_effect (t : Table) (clean createNewCols : Bool)
    (f1 a1 u1 : Bool) (l1 : String) (f2 a2 u2 : Bool) (l2 : String) :
    wrangle t clean createNewCols f1 a1 u1 l1
      = wrangle t clean createNewCols f2 a2 u2 l2 := rfl

/-! ## C1 — the no-price removal step crashes on raw data -/

/-- C1 (code bug).  On a well-formed raw one-record table (`rawTbl` has
the raw `prices` mapping column but no derived `price_usd` column) the
`clean=True` filtering stage does not complete: its final removal step
`__drop_no_price_cards` selects on the `price_usd` column, which only
`__create_price_usd_col` — run in the *later* derivation stage — creates,
so the stage dies with a KeyError instead of removing the null-price
records. -/
theorem C1_noPrice_keyerror :
    wrangle rawTbl true true false false false "English"
      = Except.error "KeyError: price_usd" := by rfl

/-! ## C2 — fetch failures: raised at construction, caught in get_dataset -/

def fs0 : FSState := ⟨true, Except.ok ()⟩

def resp404 : ListingResp :=
  ⟨404, some "https://data.scryfall.io/all-cards/all-cards.json"⟩

/-- C2 (counterexample).  A fetch interaction in which the listing
endpoint answers 404 ends with a *raised* assertion failure from
`ScryfallAPI.__init__`, not with a structured `success=False` result. -/
theorem C2_counterexample :
    fetchInteraction resp404 fs0 = FetchOutcome.raised statusAssertMsg := rfl

/-- C2 (amended).  A non-200 listing response, or a listing body missing
the download-URI field, escapes as a raised error at fetcher
construction; once construction has succeeded no fetch interaction
raises, and a download-phase exception is returned as a structured
result with `success=False` and the exception message. -/
theorem C2_amended :
    (∀ resp fs, resp.status ≠ 200 →
        fetchInteraction resp fs = FetchOutcome.raised statusAssertMsg) ∧
    (∀ resp fs, resp.status = 200 → resp.downloadUri = none →
        fetchInteraction resp fs = FetchOutcome.raised missingUriMsg) ∧
    (∀ resp f fs, scryfallInit resp = Except.ok f →
        fetchInteraction resp fs = FetchOutcome.completed (getDataset f fs)) ∧
    (∀ f fs e, fs.existsF = false → fs.download = Except.error e →
        getDataset f fs = ⟨false, e⟩) := by
  refine ⟨?_, ?_, ?_, ?_⟩
  · intro resp fs h
    unfold fetchInteraction scryfallInit
    rw [if_neg h]
  · intro resp fs h1 h2
    unfold fetchInteraction scryfallInit
    rw [if_pos h1, h2]
  · intro resp f fs h
    unfold fetchInteraction
    rw [h]
  · intro f fs e h1 h2
    unfold getDataset
    rw [if_neg (by simp [h1]), h2]

/-- Witness for C2: the amended theorem applied at a concrete 500
response and at a concrete failed download. -/
theorem C2_amended_witness :
    fetchInteraction ⟨500, none⟩ fs0 = FetchOutcome.raised statusAssertMsg ∧
    getDataset ⟨"u", "f"⟩ ⟨false, Except.error "OSError: disk full"⟩
      = ⟨false, "OSError: disk full"⟩ :=
  ⟨C2_amended.1 ⟨500, none⟩ fs0 (by decide),
   C2_amended.2.2.2 ⟨"u", "f"⟩ ⟨false, Except.error "OSError: disk full"⟩
     "OSError: disk full" rfl rfl⟩

/-! ## C3 — not every removal step re-queries its condition -/

/-- A one-record table whose record matches the memorabilia condition. -/
def tMem : Table := ⟨["set_type"], [[("set_type", Val.s "memorabilia")]]⟩

/-- A two-record table whose flag column holds an explicit `True`. -/
def tTrueFlag : Table :=
  ⟨["reprint"], [[("reprint", Val.b true)], [("reprint", Val.b false)]]⟩

/-- C3 (counterexample).  The memorabilia removal step has no re-query:
its post-removal phase is empty, so on a table that still holds a record
matching the removed condition (re-query count 1) it signals no
internal-consistency failure at all. -/
theorem C3_counterexample :
    noCheckPhase tMem = Except.ok tMem ∧
    countMatchingE "set_type" (strEqPred "memorabilia") tMem = Except.ok 1 :=
  ⟨rfl, rfl⟩

/-- C3 (amended).  The flag-based steps' assert does signal whenever a
`True` flag value remains, the substring-based steps' assert signals
whenever the re-query count is positive, and the language step's assert
signals whenever two distinct non-null language values remain; but the
memorabilia, duplicated-mdfc, special-rarity and no-price removal steps
perform no re-query and never signal. -/
theorem C3_amended :
    (∀ c m t, (getColVals t c).any (fun v => scalarEq v (Val.b true)) = true →
        ∃ e, flagCheck c m t = Except.error e) ∧
    (∀ c p m t k, countMatchingE c p t = Except.ok (k + 1) →
        ∃ e, assertNoneMatching c p m t = Except.error e) ∧
    (∀ c m t v rest w, nonNullVals t c = v :: rest → w ∈ rest →
        scalarEq v w = false → ∃ e, uniformCheck c m t = Except.error e) ∧
    (∀ t, noCheckPhase t = Except.ok t) := by
  refine ⟨?_, ?_, ?_, fun t => rfl⟩
  · intro c m t h
    by_cases hc : hasCol t c
    · obtain ⟨v, hv, hvt⟩ := List.any_eq_true.mp h
      have hvb := scalarEq_btrue hvt
      subst hvb
      have hmem : Val.b true ∈ nonNullVals t c :=
        List.mem_filter.mpr ⟨hv, by simp [isNullV]⟩
      have hne : (nonNullVals t c).isEmpty = false := by
        cases hnn : nonNullVals t c with
        | nil => rw [hnn] at hmem; simp at hmem
        | cons a l => rfl
      have hall : (nonNullVals t c).all (fun v => scalarEq v (Val.b false)) = false := by
        by_contra hcon
        rw [Bool.not_eq_false] at hcon
        have := List.all_eq_true.mp hcon (Val.b true) hmem
        simp [scalarEq] at this
      refine ⟨m, ?_⟩
      unfold flagCheck
      rw [if_pos hc, if_neg (by simp [hne]), if_neg (by simp [hall])]
    · exact ⟨"KeyError: " ++ c, by unfold flagCheck; rw [if_neg hc]⟩
  · intro c p m t k h
    refine ⟨m, ?_⟩
    unfold assertNoneMatching
    rw [h]
    simp [Bind.bind, Except.bind]
  · intro c m t v rest w hnn hw hne
    by_cases hc : hasCol t c
    · refine ⟨m, ?_⟩
      unfold uniformCheck
      rw [if_pos hc, hnn]
      have hall : rest.all (fun w => scalarEq v w) = false := by
        by_contra hcon
        rw [Bool.not_eq_false] at hcon
        have := List.all_eq_true.mp hcon w hw
        rw [this] at hne
        exact absurd hne (by simp)
      show (if rest.all (fun w => scalarEq v w) then Except.ok t
          else Except.error m) = Except.error m
      rw [hall]
      rfl
    · exact ⟨"KeyError: " ++ c, by unfold uniformCheck; rw [if_neg hc]⟩

/-- Witness for C3: the amended theorem applied at a table holding an
explicit `True` reprint flag and at the memorabilia table. -/
theorem C3_amended_witness :
    (∃ e, flagCheck "reprint" "AssertionError: reprint" tTrueFlag = Except.error e) ∧
    noCheckPhase tMem = Except.ok tMem :=
  ⟨C3_amended.1 "reprint" "AssertionError: reprint" tTrueFlag (by rfl),
   C3_amended.2.2.2 tMem⟩

/-! ## C7 — restricted_mana vs converted mana cost -/

/-- C7 (counterexample).  A record with mana cost "{3}" and converted
mana cost 3 gets `restricted_mana = 0` although its converted mana cost
is not 0, so "equals 0 exactly when cmc is 0" fails; and a record with
mana cost "{W}{U}" but converted mana cost 1 gets `restricted_mana = 2`,
outside [0,1], so the unconditional "[0,1] whenever cmc > 0" fails too. -/
theorem C7_counterexample :
    restrictedManaFun ((countRestricted "{3}".toList : Nat) : Rat) 3 = 0 ∧
    (3 : Rat) ≠ 0 ∧
    1 < restrictedManaFun ((countRestricted "{W}{U}".toList : Nat) : Rat) 1 := by
  refine ⟨?_, by norm_num, ?_⟩
  · show restrictedManaFun ((0 : Nat) : Rat) 3 = 0
    norm_num [restrictedManaFun]
  · show 1 < restrictedManaFun ((2 : Nat) : Rat) 1
    norm_num [restrictedManaFun]

/-- C7 (amended).  `restricted_mana` is 0 whenever the converted mana
cost is 0 (the division is guarded); when the converted mana cost is
positive it equals the restricted count divided by the converted mana
cost, and lies in [0,1] whenever the restricted count does not exceed
the converted mana cost. -/
theorem C7_amended (mc : String) (cmc : Rat) :
    (cmc = 0 → restrictedManaFun ((countRestricted mc.toList : Nat) : Rat) cmc = 0) ∧
    (0 < cmc → restrictedManaFun ((countRestricted mc.toList : Nat) : Rat) cmc
        = ((countRestricted mc.toList : Nat) : Rat) / cmc) ∧
    (0 < cmc → ((countRestricted mc.toList : Nat) : Rat) ≤ cmc →
        0 ≤ restrictedManaFun ((countRestricted mc.toList : Nat) : Rat) cmc ∧
        restrictedManaFun ((countRestricted mc.toList : Nat) : Rat) cmc ≤ 1) := by
  refine ⟨?_, ?_, ?_⟩
  · intro h
    simp [restrictedManaFun, h]
  · intro h
    simp [restrictedManaFun, ne_of_gt h]
  · intro h hle
    unfold restrictedManaFun
    rw [if_pos (ne_of_gt h)]
    exact ⟨div_nonneg (Nat.cast_nonneg _) (le_of_lt h), (div_le_one h).mpr hle⟩

/-- Witness for C7: the amended theorem applied at the spec's worked
example, mana cost "{1}{U}{R}" with converted mana cost 3. -/
theorem C7_amended_witness :
    0 ≤ restrictedManaFun ((countRestricted "{1}{U}{R}".toList : Nat) : Rat) 3 ∧
    restrictedManaFun ((countRestricted "{1}{U}{R}".toList : Nat) : Rat) 3 ≤ 1 :=
  (C7_amended "{1}{U}{R}" 3).2.2 (by norm_num) (by decide)

/-! ## C8 — n_types equals the count of true type flags -/

/-- The boolean an `is_<type>` column holds for a record, read off the
record's type vector exactly as `__create_bool_type_cols` does
(`type_list[i] == 1`). -/
def isTypeFlag (tl : String) (i : Nat) : Bool :=
  scalarEq (((typeBoolList tl).map (fun n => Val.num n)).getD i (Val.num 0))
    (Val.num 1)

theorem valListSumE_map_num (l : List Nat) :
    valListSumE (l.map (fun n => Val.num n)) = Except.ok ((l.sum : Nat) : Rat) := by
  induction l with
  | nil => simp [valListSumE]
  | cons a l ih =>
      show valListSumE (Val.num (a : Rat) :: l.map (fun n => Val.num n))
          = Except.ok (((a :: l).sum : Nat) : Rat)
      rw [show valListSumE (Val.num (a : Rat) :: l.map (fun n => Val.num n))
          = (valListSumE (l.map (fun n => Val.num n))).bind
              (fun r => Except.ok ((a : Rat) + r)) from rfl]
      rw [ih]
      show Except.ok ((a : Rat) + ((l.sum : Nat) : Rat))
          = Except.ok (((a :: l).sum : Nat) : Rat)
      rw [List.sum_cons, Nat.cast_add]

theorem sum_eq_countP_num (l : List Nat) (h : ∀ x ∈ l, x = 0 ∨ x = 1) :
    l.sum = (List.range l.length).countP
      (fun i => scalarEq ((l.map (fun n => Val.num n)).getD i (Val.num 0))
        (Val.num 1)) := by
  induction l with
  | nil => rfl
  | cons a l ih =>
      have hrec := ih (fun x hx => h x (List.mem_cons_of_mem _ hx))
      rw [List.sum_cons, List.length_cons, List.range_succ_eq_map,
        List.countP_cons, List.countP_map]
      have hcomp : List.countP
          ((fun i => scalarEq (((a :: l).map (fun n => Val.num n)).getD i (Val.num 0))
            (Val.num 1)) ∘ Nat.succ) (List.range l.length)
          = List.countP
            (fun i => scalarEq ((l.map (fun n => Val.num n)).getD i (Val.num 0))
              (Val.num 1)) (List.range l.length) := by
        refine List.countP_congr ?_
        intro i _
        simp [Function.comp, List.getD_cons_succ]
      rw [hcomp, ← hrec]
      rcases h a (List.mem_cons_self a l) with h0 | h1
      · subst h0
        have : scalarEq (((0 :: l).map (fun n => Val.num n)).getD 0 (Val.num 0))
            (Val.num 1) = false := by
          simp [scalarEq]
        rw [this]
        simp
      · subst h1
        have : scalarEq (((1 :: l).map (fun n => Val.num n)).getD 0 (Val.num 0))
            (Val.num 1) = true := by
          simp [scalarEq]
        rw [this]
        simp [Nat.add_comm]

/-- C8 (confirmed).  For every record, the `n_types` value the pipeline
computes (`sum(type_list)` over the record's type vector, as a pandas
float) equals the number of `True` values among the 8 `is_<type>`
columns derived from the same vector. -/
theorem C8_nTypes_eq_count (tl : String) :
    valListSumE ((typeBoolList tl).map (fun n => Val.num n))
      = Except.ok (((List.range 8).countP (fun i => isTypeFlag tl i) : Nat) : Rat) := by
  have h01 : ∀ x ∈ typeBoolList tl, x = 0 ∨ x = 1 := by
    intro x hx
    simp only [typeBoolList, List.mem_map] at hx
    obtain ⟨ct, _, hct⟩ := hx
    by_cases h : strContains tl ct
    · rw [if_pos h] at hct; exact Or.inr hct.symm
    · rw [if_neg h] at hct; exact Or.inl hct.symm
  have hlen : (typeBoolList tl).length = 8 := by
    simp [typeBoolList, mainCardTypes]
  have hsum := sum_eq_countP_num (typeBoolList tl) h01
  rw [valListSumE_map_num, hsum, hlen]
  rfl

/-! ## C9 — the spec's worked derivation example -/

/-- The table the derivation-only run returns on `t9`. -/
def out9 : Table :=
  (wrangle t9 false true false false false "English").toOption.getD ⟨[], []⟩

/-- The table the full cleaning run returns on `tblClean`. -/
def outClean : Table :=
  (wrangle tblClean true true false false false "English").toOption.getD ⟨[], []⟩

/-- The table the pass-through run returns on `t4`. -/
def out4 : Table :=
  (wrangle t4 false false false false false "English").toOption.getD ⟨[], []⟩

/-- The first record's cell in a column (the tables under test here have
a known first record). -/
def outCell (t : Table) (c : String) : Val :=
  match t.rows with
  | r :: _ => rowGet r c
  | [] => Val.null

/-- C9 (confirmed).  Running the derivation stage (`clean=False`,
`create_new_cols=True`) on the record with type line
"Legendary Creature — Human Wizard", colour identity ["U","R"] and mana
cost "{1}{U}{R}" (converted mana cost 3) yields `is_legendary = true`,
`is_creature = true`, `n_types = 1`, `is_blue = true`, `is_red = true`,
`n_colors = 2`, `n_restricted_mana = 2` and `restricted_mana = 2/3`. -/
theorem C9_example_record :
    wrangle t9 false true false false false "English" = Except.ok out9 ∧
      (scalarEq (outCell out9 "is_legendary") (Val.b true) &&
       scalarEq (outCell out9 "is_creature") (Val.b true) &&
       scalarEq (outCell out9 "n_types") (Val.num 1) &&
       scalarEq (outCell out9 "is_blue") (Val.b true) &&
       scalarEq (outCell out9 "is_red") (Val.b true) &&
       scalarEq (outCell out9 "n_colors") (Val.num 2) &&
       scalarEq (outCell out9 "n_restricted_mana") (Val.num 2) &&
       scalarEq (outCell out9 "restricted_mana") (Val.num (2 / 3))) = true :=
  ⟨by with_unfolding_all rfl, by with_unfolding_all rfl⟩

/-! ## C5 — output columns can still be half-missing -/

/-- C5 (counterexample).  A completed `clean=True` run on `tblClean`
returns a table whose `price_usd` column — recreated by the derivation
stage from the raw `prices` mapping after the null-price row filter
already ran — is missing in 1 of 2 records, i.e. its missing-value
proportion is 50%, not strictly below 50%. -/
theorem C5_counterexample :
    wrangle tblClean true true false false false "English" = Except.ok outClean ∧
      outClean.cols.contains "price_usd" = true ∧
      outClean.rows.length = 2 ∧
      outClean.rows.length ≤ 2 * countNullIn outClean "price_usd" :=
  ⟨by with_unfolding_all rfl, by with_unfolding_all rfl, by with_unfolding_all rfl,
   of_decide_eq_true (by with_unfolding_all rfl)⟩

/-! ## C6 — records with a missing flag survive cleaning -/

/-- C6 (counterexample).  A completed `clean=True` run on `tblClean`
keeps the record released on 2021-05-05 — the only input record with
that release date — although that record's reprint flag is null, not
false: the flag filters only remove rows whose flag is literally `True`,
so the claim that every surviving record has `reprint == false`
"including records where a flag value was missing in the input" fails. -/
theorem C6_counterexample :
    wrangle tblClean true true false false false "English" = Except.ok outClean ∧
      outClean.rows.any (fun r => scalarEq (rowGet r "released_at")
        (Val.s "2021-05-05")) = true ∧
      (tblClean.rows.filter (fun r => scalarEq (rowGet r "released_at")
        (Val.s "2021-05-05"))).all (fun r => isNullV (rowGet r "reprint")) = true ∧
      (tblClean.rows.filter (fun r => scalarEq (rowGet r "released_at")
        (Val.s "2021-05-05"))).length = 1 :=
  ⟨by with_unfolding_all rfl, by with_unfolding_all rfl, by rfl, by rfl⟩

/-! ## C4 — single-valued columns are not dropped -/

/-- Does the column hold the same value in at least two records and in
all of them (one distinct value across all remaining records)? -/
def singleValued (vs : List Val) : Bool :=
  match vs with
  | v :: w :: rest => (w :: rest).all (fun x => scalarEq v x)
  | _ => false

/-- C4 (counterexample).  `wrangle` (pass-through configuration) returns
`t4` with its constant scalar column "foo" intact: no step of the
pipeline drops a column for carrying a single distinct value. -/
theorem C4_counterexample :
    wrangle t4 false false false false false "English" = Except.ok out4 ∧
      out4.cols.contains "foo" = true ∧
      singleValued (getColVals out4 "foo") = true :=
  ⟨by rfl, by rfl, by with_unfolding_all rfl⟩


/-! ## Lemmas about column dropping -/

theorem rowGet_keyFilter_not_mem {names : List String} {c : String}
    (h : names.contains c = false) (r : Row) :
    rowGet (r.filter (fun kv => !(names.contains kv.1))) c = rowGet r c := by
  induction r with
  | nil => rfl
  | cons kv r ih =>
      obtain ⟨k, v⟩ := kv
      by_cases hk : k = c
      · subst hk
        rw [@List.filter_cons_of_pos _ (fun kv => !(names.contains kv.1)) (k, v) r
          (show (!(names.contains k)) = true by rw [h]; rfl)]
        simp [rowGet]
      · have hbeq : (k == c) = false := by simp [hk]
        cases hkeep : names.contains k with
        | true =>
            rw [@List.filter_cons_of_neg _ (fun kv => !(names.contains kv.1)) (k, v) r
              (show ¬ (!(names.contains k)) = true by rw [hkeep]; simp)]
            rw [ih]
            simp [rowGet, hbeq]
        | false =>
            rw [@List.filter_cons_of_pos _ (fun kv => !(names.contains kv.1)) (k, v) r
              (show (!(names.contains k)) = true by rw [hkeep]; rfl)]
            simp only [rowGet, hbeq]
            rw [if_neg (show ¬ false = true by simp), if_neg (show ¬ false = true by simp)]
            exact ih

theorem rowGet_keyFilter_mem {names : List String} {c : String}
    (h : names.contains c = true) (r : Row) :
    rowGet (r.filter (fun kv => !(names.contains kv.1))) c = Val.null := by
  induction r with
  | nil => rfl
  | cons kv r ih =>
      obtain ⟨k, v⟩ := kv
      by_cases hk : k = c
      · subst hk
        rw [@List.filter_cons_of_neg _ (fun kv => !(names.contains kv.1)) (k, v) r
          (show ¬ (!(names.contains k)) = true by rw [h]; simp)]
        exact ih
      · have hbeq : (k == c) = false := by simp [hk]
        cases hkeep : names.contains k with
        | true =>
            rw [@List.filter_cons_of_neg _ (fun kv => !(names.contains kv.1)) (k, v) r
              (show ¬ (!(names.contains k)) = true by rw [hkeep]; simp)]
            exact ih
        | false =>
            rw [@List.filter_cons_of_pos _ (fun kv => !(names.contains kv.1)) (k, v) r
              (show (!(names.contains k)) = true by rw [hkeep]; rfl)]
            simp only [rowGet, hbeq]
            rw [if_neg (show ¬ false = true by simp)]
            exact ih

theorem getColVals_dropColsByName {names : List String} {t : Table} {c : String}
    (h : names.contains c = false) :
    getColVals (dropColsByName names t) c = getColVals t c := by
  unfold getColVals dropColsByName
  rw [List.map_map]
  exact List.map_congr_left (fun r _ => rowGet_keyFilter_not_mem h r)

/-! ## C5 — what the null-column drop does guarantee -/

/-- C5 (amended).  Immediately after `__drop_null_cols`, every surviving
column has a missing-value proportion strictly below 50%; the bound is
not re-established for columns created later by derivation (e.g. the
recreated `price_usd`) or after later row removals, where it can fail. -/
theorem C5_amended (t : Table) (c : String) (h : c ∈ (dropNullCols t).cols) :
    2 * countNullIn (dropNullCols t) c < (dropNullCols t).rows.length := by
  have h' := List.mem_filter.mp (h : c ∈ (dropNullCols t).cols)
  have hnc : (dropNullNames t).contains c = false := by
    have := h'.2
    cases hx : (dropNullNames t).contains c
    · rfl
    · rw [hx] at this
      simp at this
  have hcond : ¬ (t.rows.length ≤ 2 * countNullIn t c) := by
    intro hle
    have hmem : c ∈ dropNullNames t :=
      List.mem_filter.mpr ⟨h'.1, decide_eq_true hle⟩
    have h2 : (dropNullNames t).contains c = true := List.elem_iff.mpr hmem
    rw [hnc] at h2
    exact Bool.noConfusion h2
  have hcount : countNullIn (dropNullCols t) c = countNullIn t c := by
    unfold countNullIn
    rw [show (dropNullCols t) = dropColsByName (dropNullNames t) t from rfl,
      getColVals_dropColsByName hnc]
  have hlen : (dropNullCols t).rows.length = t.rows.length := by
    unfold dropNullCols dropColsByName
    simp
  rw [hcount, hlen]
  exact Nat.lt_of_not_le hcond

/-- Witness for C5: the amended theorem applied at the concrete constant
column "foo" of `t4`, which survives the null-column drop. -/
theorem C5_amended_witness :
    2 * countNullIn (dropNullCols t4) "foo" < (dropNullCols t4).rows.length :=
  C5_amended t4 "foo" (by decide)

/-! ## C4 — what the list/dict column drop does guarantee -/

/-- C4 (amended).  Every column of the table `wrangle` returns passed the
list/dict sampling check: its first non-null value in the table entering
the tail of the pipeline is not a nested list or mapping (such columns
are queued and dropped).  Columns with a single distinct value are not
removed on that account — no step does so. -/
theorem C4_amended (t : Table) (clean createNewCols f a u : Bool) (l : String)
    (out : Table) (h : wrangle t clean createNewCols f a u l = Except.ok out) :
    ∃ mid drops, preTail t clean createNewCols = Except.ok (mid, drops) ∧
      ∀ c ∈ out.cols, ∃ v, firstNonNull mid c = some v ∧ isListDictV v = false := by
  unfold wrangle at h
  obtain ⟨x, hpre, htail⟩ := exceptBindOk h
  refine ⟨x.1, x.2, by rw [Prod.mk.eta]; exact hpre, ?_⟩
  intro c hc
  unfold tailStage at htail
  obtain ⟨flagged, hflag, h2⟩ := exceptBindOk htail
  obtain ⟨sorted, hsort, h3⟩ := exceptBindOk h2
  have hout : out = dropColsByName
      (cleanDropColsOf (((x.2 ++ flagged) ++ uriColsOf x.1) ++ idColsOf x.1) x.1)
      sorted :=
    (Except.ok.inj h3).symm
  subst hout
  have hc2 : c ∈ sorted.cols.filter
      (fun d => !((cleanDropColsOf (((x.2 ++ flagged) ++ uriColsOf x.1)
        ++ idColsOf x.1) x.1).contains d)) := hc
  obtain ⟨hcSorted, hcNot⟩ := List.mem_filter.mp hc2
  have hcolseq := sortByReleaseDate_ok hsort
  have hcCols : c ∈ x.1.cols := by rw [hcolseq] at hcSorted; exact hcSorted
  unfold listDictColsE at hflag
  obtain ⟨samples, hsm, hfl⟩ := exceptBindOk hflag
  have hflagged : flagged = (samples.filter (fun cv => isListDictV cv.2)).map Prod.fst :=
    (Except.ok.inj hfl).symm
  obtain ⟨y, hg, hys⟩ := mapM_ok_mem hsm c hcCols
  cases hfn : firstNonNull x.1 c with
  | none =>
      rw [hfn] at hg
      exact absurd hg (by simp)
  | some v =>
      rw [hfn] at hg
      have hy : y = (c, v) := (Except.ok.inj hg).symm
      subst hy
      refine ⟨v, rfl, ?_⟩
      cases hld : isListDictV v with
      | false => rfl
      | true =>
          exfalso
          have hmemFil : (c, v) ∈ samples.filter (fun cv => isListDictV cv.2) :=
            List.mem_filter_of_mem hys hld
          have hcFlag : c ∈ flagged := by
            rw [hflagged]
            exact List.mem_map.mpr ⟨(c, v), hmemFil, rfl⟩
          have hcDrops : c ∈ ((x.2 ++ flagged) ++ uriColsOf x.1) ++ idColsOf x.1 :=
            List.mem_append.mpr (Or.inl (List.mem_append.mpr (Or.inl
              (List.mem_append.mpr (Or.inr hcFlag)))))
          have hcClean : c ∈ cleanDropColsOf
              (((x.2 ++ flagged) ++ uriColsOf x.1) ++ idColsOf x.1) x.1 :=
            List.mem_filter_of_mem hcDrops (List.elem_iff.mpr hcCols)
          have hcont : (cleanDropColsOf (((x.2 ++ flagged) ++ uriColsOf x.1)
              ++ idColsOf x.1) x.1).contains c = true :=
            List.elem_iff.mpr hcClean
          rw [hcont] at hcNot
          simp at hcNot

/-- Witness for C4: the amended theorem applied at `t4` and its computed
output `out4`. -/
theorem C4_amended_witness :
    ∃ mid drops, preTail t4 false false = Except.ok (mid, drops) ∧
      ∀ c ∈ out4.cols, ∃ v, firstNonNull mid c = some v ∧ isListDictV v = false :=
  C4_amended t4 false false false false false "English" out4 (by rfl)

/-! ## C6 — what the flag filters do guarantee -/

/-- No record of the table has the given flag set to `True`. -/
def NoTrueIn (c : String) (t : Table) : Prop :=
  ∀ r ∈ t.rows, rowGet r c ≠ Val.b true

/-- Every record of the table has language code exactly "en". -/
def AllEnRows (t : Table) : Prop :=
  ∀ r ∈ t.rows, rowGet r "lang" = Val.s "en"

theorem noCheckPhase_ok {t t' : Table} (h : noCheckPhase t = Except.ok t') : t' = t :=
  (Except.ok.inj h).symm

theorem flagDropStep_ok {c m : String} {x y : TS}
    (h : flagDropStep c m x = Except.ok y) :
    y.1.cols = x.1.cols ∧ (∀ r ∈ y.1.rows, r ∈ x.1.rows) ∧ NoTrueIn c y.1 := by
  unfold flagDropStep at h
  obtain ⟨t1, h1, h'⟩ := exceptBindOk h
  obtain ⟨t2, h2, h3⟩ := exceptBindOk h'
  have ht := flagCheck_ok h2
  subst ht
  have hy : y = (t2, x.2 ++ [c]) := (Except.ok.inj h3).symm
  subst hy
  obtain ⟨hcols, hrows⟩ := dropRowsWhere_ok h1
  refine ⟨hcols, fun r hr => (hrows r hr).1, ?_⟩
  intro r hr hEq
  have hp := (hrows r hr).2
  rw [hEq] at hp
  simp [isTruePred, scalarEq] at hp

theorem dropBasicLands_ok {x y : TS} (h : dropBasicLands x = Except.ok y) :
    y.1.cols = x.1.cols ∧ ∀ r ∈ y.1.rows, r ∈ x.1.rows := by
  unfold dropBasicLands at h
  obtain ⟨t1, h1, h'⟩ := exceptBindOk h
  obtain ⟨t2, h2, h3⟩ := exceptBindOk h'
  have ht := assertNoneMatching_ok h2
  subst ht
  have hy : y = (t2, x.2) := (Except.ok.inj h3).symm
  subst hy
  obtain ⟨hcols, hrows⟩ := dropRowsWhere_ok h1
  exact ⟨hcols, fun r hr => (hrows r hr).1⟩

theorem dropTokens_ok {x y : TS} (h : dropTokens x = Except.ok y) :
    y.1.cols = x.1.cols ∧ ∀ r ∈ y.1.rows, r ∈ x.1.rows := by
  unfold dropTokens at h
  obtain ⟨t1, h1, hb⟩ := exceptBindOk h
  obtain ⟨t2, h2, hc⟩ := exceptBindOk hb
  obtain ⟨t3, h3, hd⟩ := exceptBindOk hc
  obtain ⟨t4x, h4, h5⟩ := exceptBindOk hd
  have e2 := assertNoneMatching_ok h2
  subst e2
  have hy : y = (t4x, x.2) := (Except.ok.inj h5).symm
  subst hy
  obtain ⟨c1, r1⟩ := dropRowsWhere_ok h1
  obtain ⟨c3, r3⟩ := dropRowsWhere_ok h3
  obtain ⟨c4, r4⟩ := dropRowsWhere_ok h4
  refine ⟨by rw [c4, c3, c1], ?_⟩
  intro r hr
  exact (r1 _ (r3 _ (r4 r hr).1).1).1

theorem dropUnSets_ok {x y : TS} (h : dropUnSets x = Except.ok y) :
    y.1.cols = x.1.cols ∧ ∀ r ∈ y.1.rows, r ∈ x.1.rows := by
  unfold dropUnSets at h
  obtain ⟨t1, h1, hb⟩ := exceptBindOk h
  obtain ⟨t2, h2, hc⟩ := exceptBindOk hb
  obtain ⟨t3, h3, hd⟩ := exceptBindOk hc
  obtain ⟨t4x, h4, h5⟩ := exceptBindOk hd
  have e2 := assertNoneMatching_ok h2
  subst e2
  have hy : y = (t4x, x.2) := (Except.ok.inj h5).symm
  subst hy
  obtain ⟨c1, r1⟩ := dropRowsWhere_ok h1
  obtain ⟨c3, r3⟩ := dropRowsWhere_ok h3
  obtain ⟨c4, r4⟩ := dropRowsWhere_ok h4
  refine ⟨by rw [c4, c3, c1], ?_⟩
  intro r hr
  exact (r1 _ (r3 _ (r4 r hr).1).1).1

theorem dropLanguages_ok {x y : TS} (h : dropLanguages x = Except.ok y) :
    y.1.cols = x.1.cols ∧ (∀ r ∈ y.1.rows, r ∈ x.1.rows) ∧ AllEnRows y.1 := by
  unfold dropLanguages at h
  obtain ⟨t1, h1, h'⟩ := exceptBindOk h
  obtain ⟨t2, h2, h3⟩ := exceptBindOk h'
  have ht := uniformCheck_ok h2
  subst ht
  have hy : y = (t2, x.2 ++ ["lang"]) := (Except.ok.inj h3).symm
  subst hy
  obtain ⟨hcols, hrows⟩ := dropRowsWhere_ok h1
  refine ⟨hcols, fun r hr => (hrows r hr).1, ?_⟩
  intro r hr
  have hp := (hrows r hr).2
  have hb : (!(scalarEq (rowGet r "lang") (Val.s "en"))) = false := Except.ok.inj hp
  have htrue : scalarEq (rowGet r "lang") (Val.s "en") = true := by
    cases hx : scalarEq (rowGet r "lang") (Val.s "en")
    · rw [hx] at hb
      simp at hb
    · rfl
  exact scalarEq_sLit htrue

theorem dropMemorabilia_ok {x y : TS} (h : dropMemorabilia x = Except.ok y) :
    y.1.cols = x.1.cols ∧ ∀ r ∈ y.1.rows, r ∈ x.1.rows := by
  unfold dropMemorabilia at h
  obtain ⟨t1, h1, h'⟩ := exceptBindOk h
  obtain ⟨t2, h2, h3⟩ := exceptBindOk h'
  have ht := noCheckPhase_ok h2
  subst ht
  have hy : y = (t2, x.2) := (Except.ok.inj h3).symm
  subst hy
  obtain ⟨hcols, hrows⟩ := dropRowsWhere_ok h1
  exact ⟨hcols, fun r hr => (hrows r hr).1⟩

theorem dropSpecialRarityCards_ok {x y : TS}
    (h : dropSpecialRarityCards x = Except.ok y) :
    y.1.cols = x.1.cols ∧ ∀ r ∈ y.1.rows, r ∈ x.1.rows := by
  unfold dropSpecialRarityCards at h
  obtain ⟨t1, h1, h'⟩ := exceptBindOk h
  obtain ⟨t2, h2, h3⟩ := exceptBindOk h'
  have ht := noCheckPhase_ok h2
  subst ht
  have hy : y = (t2, x.2) := (Except.ok.inj h3).symm
  subst hy
  obtain ⟨hcols, hrows⟩ := dropRowsWhere_ok h1
  exact ⟨hcols, fun r hr => (hrows r hr).1⟩

theorem dropNoPriceCards_ok {x y : TS} (h : dropNoPriceCards x = Except.ok y) :
    y.1.cols = x.1.cols ∧ ∀ r ∈ y.1.rows, r ∈ x.1.rows := by
  unfold dropNoPriceCards at h
  obtain ⟨t1, h1, h'⟩ := exceptBindOk h
  obtain ⟨t2, h2, h3⟩ := exceptBindOk h'
  have ht := noCheckPhase_ok h2
  subst ht
  have hy : y = (t2, x.2) := (Except.ok.inj h3).symm
  subst hy
  obtain ⟨hcols, hrows⟩ := dropRowsWhere_ok h1
  exact ⟨hcols, fun r hr => (hrows r hr).1⟩

theorem dropDuplicatedMdfcCards_ok {x y : TS}
    (h : dropDuplicatedMdfcCards x = Except.ok y) :
    y.1.cols = x.1.cols ∧ ∀ r ∈ y.1.rows, r ∈ x.1.rows := by
  unfold dropDuplicatedMdfcCards at h
  obtain ⟨t1, h1, h'⟩ := exceptBindOk h
  obtain ⟨t2, h2, h3⟩ := exceptBindOk h'
  have ht := noCheckPhase_ok h2
  subst ht
  have hy : y = (t2, x.2) := (Except.ok.inj h3).symm
  subst hy
  obtain ⟨hcols, hrows⟩ := dropRowsWhereRow_ok h1
  exact ⟨hcols, hrows⟩

theorem dropLeakage_ok {x y : TS} (h : dropLeakage x = Except.ok y) :
    y.1 = x.1 := by
  unfold dropLeakage at h
  have hy : y = (x.1, x.2 ++ ["edhrec_rank", "penny_rank", "collector_number"]) :=
    (Except.ok.inj h).symm
  rw [hy]

theorem dropUnusableCols_ok {x y : TS} (h : dropUnusableCols x = Except.ok y) :
    y.1 = x.1 := by
  unfold dropUnusableCols at h
  have hy := (Except.ok.inj h).symm
  rw [hy]

theorem dropNullColsStep_ok {x y : TS} (h : dropNullColsStep x = Except.ok y) :
    y.1 = dropNullCols x.1 := by
  unfold dropNullColsStep at h
  have hy : y = (dropNullCols x.1, x.2) := (Except.ok.inj h).symm
  rw [hy]

theorem noTrue_sub {c : String} {t t' : Table}
    (hs : ∀ r ∈ t'.rows, r ∈ t.rows) (h : NoTrueIn c t) : NoTrueIn c t' :=
  fun r hr => h r (hs r hr)

theorem allEn_sub {t t' : Table}
    (hs : ∀ r ∈ t'.rows, r ∈ t.rows) (h : AllEnRows t) : AllEnRows t' :=
  fun r hr => h r (hs r hr)

theorem noTrue_dropNullCols {c : String} {t : Table} (h : NoTrueIn c t) :
    NoTrueIn c (dropNullCols t) := by
  intro r' hr'
  have hr2 : r' ∈ t.rows.map
      (fun r => r.filter (fun kv => !((dropNullNames t).contains kv.1))) := hr'
  obtain ⟨r, hr, hrfil⟩ := List.mem_map.mp hr2
  subst hrfil
  cases hx : (dropNullNames t).contains c with
  | false =>
      rw [rowGet_keyFilter_not_mem hx]
      exact h r hr
  | true =>
      rw [rowGet_keyFilter_mem hx]
      simp

theorem allEn_dropNullCols {t : Table} (h : AllEnRows t)
    (hc : "lang" ∈ (dropNullCols t).cols) : AllEnRows (dropNullCols t) := by
  have hc2 : "lang" ∈ t.cols.filter (fun d => !((dropNullNames t).contains d)) := hc
  obtain ⟨_, hnot⟩ := List.mem_filter.mp hc2
  have hx : (dropNullNames t).contains "lang" = false := by
    cases hy : (dropNullNames t).contains "lang"
    · rfl
    · rw [hy] at hnot
      simp at hnot
  intro r' hr'
  have hr2 : r' ∈ t.rows.map
      (fun r => r.filter (fun kv => !((dropNullNames t).contains kv.1))) := hr'
  obtain ⟨r, hr, hrfil⟩ := List.mem_map.mp hr2
  subst hrfil
  rw [rowGet_keyFilter_not_mem hx]
  exact h r hr

/-- C6 (amended).  After a completed cleaning stage, no surviving record
has `reprint`, `digital` or `reserved` equal to `True` (the flag filters
only remove rows whose flag is literally `True`, so a missing flag may
survive as missing rather than false), and — while the language column is
still present — every surviving record's language code is exactly "en". -/
theorem C6_amended (t : Table) (n f a u : Bool) (l : String) (out : Table)
    (h : wrangle t true n f a u l = Except.ok out) :
    ∃ mid drops, cleanStage (t, []) = Except.ok (mid, drops) ∧
      NoTrueIn "reprint" mid ∧ NoTrueIn "digital" mid ∧ NoTrueIn "reserved" mid ∧
      ("lang" ∈ mid.cols → AllEnRows mid) := by
  unfold wrangle preTail at h
  obtain ⟨x2, hpre, _⟩ := exceptBindOk h
  rw [if_pos rfl] at hpre
  obtain ⟨x1, hclean, _⟩ := exceptBindOk hpre
  refine ⟨x1.1, x1.2, by rw [Prod.mk.eta]; exact hclean, ?_⟩
  unfold cleanStage at hclean
  obtain ⟨z17, k17, h18⟩ := exceptBindOk hclean
  obtain ⟨z16, k16, h17⟩ := exceptBindOk k17
  obtain ⟨z15, k15, h16⟩ := exceptBindOk k16
  obtain ⟨z14, k14, h15⟩ := exceptBindOk k15
  obtain ⟨z13, k13, h14⟩ := exceptBindOk k14
  obtain ⟨z12, k12, h13⟩ := exceptBindOk k13
  obtain ⟨z11, k11, h12⟩ := exceptBindOk k12
  obtain ⟨z10, k10, h11⟩ := exceptBindOk k11
  obtain ⟨z9, k9, h10⟩ := exceptBindOk k10
  obtain ⟨z8, k8, h9⟩ := exceptBindOk k9
  obtain ⟨z7, k7, h8⟩ := exceptBindOk k8
  obtain ⟨z6, k6, h7⟩ := exceptBindOk k7
  obtain ⟨z5, k5, h6⟩ := exceptBindOk k6
  obtain ⟨z4, k4, h5⟩ := exceptBindOk k5
  obtain ⟨z3, k3, h4⟩ := exceptBindOk k4
  obtain ⟨z2, k2, h3⟩ := exceptBindOk k3
  obtain ⟨z1, h1, h2⟩ := exceptBindOk k2
  obtain ⟨c1, s1, ntR1⟩ := flagDropStep_ok h1
  obtain ⟨c2a, s2⟩ := dropBasicLands_ok h2
  obtain ⟨c3a, s3⟩ := dropTokens_ok h3
  obtain ⟨c4a, s4⟩ := dropUnSets_ok h4
  obtain ⟨c5a, s5, ntD5⟩ := flagDropStep_ok h5
  obtain ⟨c6a, s6, ntV6⟩ := flagDropStep_ok h6
  obtain ⟨c7a, s7, en7⟩ := dropLanguages_ok h7
  obtain ⟨c8a, s8, _⟩ := flagDropStep_ok h8
  obtain ⟨c9a, s9, _⟩ := flagDropStep_ok h9
  obtain ⟨c10a, s10, _⟩ := flagDropStep_ok h10
  obtain ⟨c11a, s11⟩ := dropMemorabilia_ok h11
  obtain ⟨c12a, s12, _⟩ := flagDropStep_ok h12
  obtain ⟨c13a, s13⟩ := dropDuplicatedMdfcCards_ok h13
  obtain ⟨c14a, s14⟩ := dropSpecialRarityCards_ok h14
  have e15 := dropLeakage_ok h15
  have e16 := dropUnusableCols_ok h16
  have e17 := dropNullColsStep_ok h17
  obtain ⟨c18a, s18⟩ := dropNoPriceCards_ok h18
  have ntR16 : NoTrueIn "reprint" z16.1 := by
    rw [e16, e15]
    exact noTrue_sub s14 (noTrue_sub s13 (noTrue_sub s12 (noTrue_sub s11
      (noTrue_sub s10 (noTrue_sub s9 (noTrue_sub s8 (noTrue_sub s7
      (noTrue_sub s6 (noTrue_sub s5 (noTrue_sub s4 (noTrue_sub s3
      (noTrue_sub s2 ntR1))))))))))))
  have ntD16 : NoTrueIn "digital" z16.1 := by
    rw [e16, e15]
    exact noTrue_sub s14 (noTrue_sub s13 (noTrue_sub s12 (noTrue_sub s11
      (noTrue_sub s10 (noTrue_sub s9 (noTrue_sub s8 (noTrue_sub s7
      (noTrue_sub s6 ntD5))))))))
  have ntV16 : NoTrueIn "reserved" z16.1 := by
    rw [e16, e15]
    exact noTrue_sub s14 (noTrue_sub s13 (noTrue_sub s12 (noTrue_sub s11
      (noTrue_sub s10 (noTrue_sub s9 (noTrue_sub s8 (noTrue_sub s7 ntV6)))))))
  have en16 : AllEnRows z16.1 := by
    rw [e16, e15]
    exact allEn_sub s14 (allEn_sub s13 (allEn_sub s12 (allEn_sub s11
      (allEn_sub s10 (allEn_sub s9 (allEn_sub s8 en7))))))
  have ntR : NoTrueIn "reprint" x1.1 := by
    refine noTrue_sub s18 ?_
    rw [e17]
    exact noTrue_dropNullCols ntR16
  have ntD : NoTrueIn "digital" x1.1 := by
    refine noTrue_sub s18 ?_
    rw [e17]
    exact noTrue_dropNullCols ntD16
  have ntV : NoTrueIn "reserved" x1.1 := by
    refine noTrue_sub s18 ?_
    rw [e17]
    exact noTrue_dropNullCols ntV16
  refine ⟨ntR, ntD, ntV, ?_⟩
  intro hl
  have hl17 : "lang" ∈ (dropNullCols z16.1).cols := by
    rw [← e17, ← c18a]
    exact hl
  refine allEn_sub s18 ?_
  rw [e17]
  exact allEn_dropNullCols en16 hl17

/-- Witness for C6: the amended theorem applied at the concrete completed
run on `tblClean`. -/
theorem C6_amended_witness :
    ∃ mid drops, cleanStage (tblClean, []) = Except.ok (mid, drops) ∧
      NoTrueIn "reprint" mid ∧ NoTrueIn "digital" mid ∧ NoTrueIn "reserved" mid ∧
      ("lang" ∈ mid.cols → AllEnRows mid) :=
  C6_amended tblClean true false false false "English" outClean
    (by with_unfolding_all rfl)
